import Mathlib

/-!
Verification development for the F1 racing-AI training core:
a shallow embedding of `f1_physics_simulator.py` (vehicle dynamics),
`ai_racing_agent.py` (track knowledge base) and `train.py`
(episode environment: termination and reward state machine),
together with theorems settling the specification claims.

Machine floats are modelled by exact reals; Python `int` state fields by `ℤ`.
Python code that can raise (indexing an empty list, `None` subscripting)
is modelled with `Option`.
-/

namespace F1

/-- Python `np.clip(x, lo, hi)` (for `lo ≤ hi`). -/
noncomputable def pyclip (x lo hi : ℝ) : ℝ := max lo (min x hi)

/-- Python `int(x)`: truncation toward zero. -/
noncomputable def pyint (x : ℝ) : ℤ := if 0 ≤ x then ⌊x⌋ else ⌈x⌉

/-- Python `np.sign`. -/
noncomputable def pysign (x : ℝ) : ℝ := if x < 0 then -1 else if 0 < x then 1 else 0

/-- Python float `a % b` (used with positive modulus `b`). -/
noncomputable def pyfmod (a b : ℝ) : ℝ := a - b * ⌊a / b⌋

/-- Python `math.radians`. -/
noncomputable def pyradians (d : ℝ) : ℝ := d * (Real.pi / 180)

/-- Python `min` over a list of floats (`none` models the exception on `[]`). -/
noncomputable def pymin (l : List ℝ) : Option ℝ :=
  match l with
  | [] => none
  | x :: xs => some (xs.foldl min x)

/-- `CarState` dataclass of `f1_physics_simulator.py` (lines 16-42). -/
@[ext] structure CarState where
  x : ℝ := 0
  y : ℝ := 0
  heading : ℝ := 0
  speed : ℝ := 0
  vx : ℝ := 0
  vy : ℝ := 0
  throttle : ℝ := 0
  brake : ℝ := 0
  steering : ℝ := 0
  gear : ℤ := 1
  rpm : ℤ := 0
  tire_temp : ℝ := 80
  fuel_kg : ℝ := 100
  lap_time : ℝ := 0
  distance : ℝ := 0

/-- `CarPhysics` dataclass (lines 45-82), defaults included;
`gear_ratios` carries the `__post_init__` default. -/
structure CarPhysics where
  mass : ℝ := 798
  drag_coefficient : ℝ := 0.9
  frontal_area : ℝ := 1.5
  downforce_coefficient : ℝ := 3
  max_power : ℝ := 710000
  max_rpm : ℤ := 15000
  idle_rpm : ℤ := 5000
  power_curve_peak : ℤ := 11000
  gear_ratios : List ℝ := [3.5, 2.8, 2.2, 1.8, 1.5, 1.3, 1.15, 1]
  final_drive : ℝ := 3.5
  max_brake_force : ℝ := 18000
  brake_balance : ℝ := 0.58
  tire_grip_coefficient : ℝ := 1.4
  tire_optimal_temp : ℝ := 90
  tire_optimal_slip : ℝ := 10
  track_friction : ℝ := 1

/-- `F1PhysicsSimulator.__init__` (lines 88-94). -/
structure F1PhysicsSimulator where
  physics : CarPhysics := {}
  dt : ℝ := 0.01
  air_density : ℝ := 1.2
  gravity : ℝ := 9.81

/-- `F1PhysicsSimulator.calculate_engine_power` (lines 96-113). -/
noncomputable def calculate_engine_power (sim : F1PhysicsSimulator) (rpm : ℤ)
    (throttle : ℝ) : ℝ :=
  let r1 : ℤ := if rpm < sim.physics.idle_rpm then sim.physics.idle_rpm else rpm
  let r2 : ℤ := if r1 > sim.physics.max_rpm then sim.physics.max_rpm else r1
  let rr : ℝ := (r2 : ℝ) / (sim.physics.power_curve_peak : ℝ)
  let power_factor : ℝ := Real.exp (-0.5 * ((rr - 1) ^ 2) / 0.3)
  sim.physics.max_power * power_factor * (throttle / 100)

/-- `F1PhysicsSimulator.calculate_aerodynamic_forces` (lines 115-130):
returns `(drag, downforce)`. -/
noncomputable def calculate_aerodynamic_forces (sim : F1PhysicsSimulator)
    (speed : ℝ) : ℝ × ℝ :=
  (0.5 * sim.air_density * speed ^ 2 * sim.physics.drag_coefficient *
     sim.physics.frontal_area,
   0.5 * sim.air_density * speed ^ 2 * sim.physics.downforce_coefficient *
     sim.physics.frontal_area)

/-- `F1PhysicsSimulator.calculate_braking_force` (lines 132-149). -/
noncomputable def calculate_braking_force (sim : F1PhysicsSimulator)
    (brake_input speed downforce : ℝ) : ℝ :=
  let normal_force := sim.physics.mass * sim.gravity + downforce
  let max_brake := normal_force * sim.physics.tire_grip_coefficient
  min (sim.physics.max_brake_force * (brake_input / 100)) max_brake

/-- Engine-force / engine-speed computation of `update_car_state`
(lines 170-224): returns `(engine_force, rpm)` as assigned there. -/
noncomputable def engine_force_and_rpm (sim : F1PhysicsSimulator)
    (state : CarState) (th : ℝ) : ℝ × ℤ :=
  let aero := calculate_aerodynamic_forces sim state.speed
  let downforce := aero.2
  let normal_force := sim.physics.mass * sim.gravity + downforce
  if 1 ≤ state.gear ∧ state.gear ≤ (sim.physics.gear_ratios.length : ℤ) then
    let gr := (sim.physics.gear_ratios.get? (state.gear - 1).toNat).getD 0
    let rpm1 : ℤ :=
      if state.speed > 0.1 then
        pyint ((state.speed * 60) / (2 * Real.pi * 0.33) * gr * sim.physics.final_drive)
      else sim.physics.idle_rpm
    let rpm2 : ℤ := max sim.physics.idle_rpm (min rpm1 sim.physics.max_rpm)
    let power := calculate_engine_power sim rpm2 th
    let speed_kmh := state.speed * 3.6
    if speed_kmh < 100 then
      let desired_force :=
        if state.speed > 0.5 then power / state.speed else 10000 * (th / 100)
      let base_grip : ℝ := 0.85
      let speed_factor := speed_kmh / 100
      let effective_grip :=
        base_grip + (sim.physics.tire_grip_coefficient - base_grip) * speed_factor
      let max_traction := normal_force * effective_grip
      (min desired_force max_traction, rpm2)
    else
      let ef0 := power / state.speed
      let max_traction := normal_force * sim.physics.tire_grip_coefficient
      (min ef0 max_traction, rpm2)
  else (0, sim.physics.idle_rpm)

/-- `F1PhysicsSimulator.update_car_state` (lines 151-263). The Python method
mutates `state` in place and returns it; here the returned record collects the
same field assignments in the same order of evaluation. -/
noncomputable def update_car_state (sim : F1PhysicsSimulator) (state : CarState)
    (throttle brake steering : ℝ) : CarState :=
  let th := pyclip throttle 0 100
  let br := pyclip brake 0 100
  let st := pyclip steering (-1) 1
  let aero := calculate_aerodynamic_forces sim state.speed
  let drag := aero.1
  let downforce := aero.2
  let er := engine_force_and_rpm sim state th
  let engine_force := er.1
  let rpm' := er.2
  let brake_force := calculate_braking_force sim br state.speed downforce
  let net_force := engine_force - drag - brake_force
  let acceleration := net_force / sim.physics.mass
  let speed' := max 0 (state.speed + acceleration * sim.dt)
  let heading' :=
    if |st| > 0.01 then
      let steering_angle := st * pyradians 30
      let wheelbase : ℝ := 3.6
      let turning_radius := wheelbase / Real.tan |steering_angle|
      let angular_velocity := speed' / turning_radius * pysign st
      pyfmod (state.heading + angular_velocity * sim.dt) (2 * Real.pi)
    else state.heading
  let vx' := speed' * Real.cos heading'
  let vy' := speed' * Real.sin heading'
  { state with
    throttle := th
    brake := br
    steering := st
    rpm := rpm'
    speed := speed'
    heading := heading'
    vx := vx'
    vy := vy'
    x := state.x + vx' * sim.dt
    y := state.y + vy' * sim.dt
    distance := state.distance + speed' * sim.dt
    lap_time := state.lap_time + sim.dt
    gear :=
      if (rpm' : ℝ) > (sim.physics.max_rpm : ℝ) * 0.95 ∧ state.gear < 8 then
        state.gear + 1
      else if (rpm' : ℝ) < (sim.physics.max_rpm : ℝ) * 0.5 ∧ state.gear > 1 then
        state.gear - 1
      else state.gear }

/-- A telemetry sample of the reference lap, after distance resolution
(`MonacoTrackKnowledge.__init__`, `ai_racing_agent.py` lines 73-93: the
`distance` key is present on every sample once construction finishes, either
taken from the data or computed cumulatively). Python truthiness of the
`brake` channel is modelled as `Bool`. -/
structure Sample where
  x : ℝ := 0
  y : ℝ := 0
  z : ℝ := 0
  speed : ℝ := 0
  throttle : ℝ := 0
  brake : Bool := false
  distance : ℝ := 0

/-- A racing-line point (`_extract_racing_line`, lines 108-120). -/
structure LinePoint where
  distance : ℝ := 0
  x : ℝ := 0
  y : ℝ := 0
  speed : ℝ := 0
  throttle : ℝ := 0
  brake : Bool := false

/-- A braking zone (`_find_braking_zones`, lines 122-149). -/
structure BrakingZone where
  start_distance : ℝ
  end_distance : ℝ
  entry_speed : ℝ
  exit_speed : ℝ
  braking_distance : ℝ

/-- An apex point (`_find_apex_points`, lines 151-167). -/
structure Apex where
  distance : ℝ
  x : ℝ
  y : ℝ
  speed : ℝ

/-- A critical turn (`_analyze_critical_turns`, lines 169-191). -/
structure Turn where
  apex_distance : ℝ
  apex_speed : ℝ
  braking_point : ℝ
  braking_distance : ℝ
  entry_speed : ℝ
  apex_coords : ℝ × ℝ

/-- `MonacoTrackKnowledge._extract_racing_line` (lines 108-120). -/
def extract_racing_line (telemetry : List Sample) : List LinePoint :=
  telemetry.map fun t =>
    { distance := t.distance, x := t.x, y := t.y, speed := t.speed,
      throttle := t.throttle, brake := t.brake }

/-- `MonacoTrackKnowledge._find_braking_zones` (lines 122-149). The Python
`while` advancing `j` over the braking run is the first index `≥ i` whose
sample does not brake (`len(telemetry)` when none). -/
def find_braking_zones (telemetry : List Sample) : List BrakingZone :=
  (List.range telemetry.length).filterMap fun i =>
    match telemetry.get? i with
    | none => none
    | some t =>
      if t.brake ∧ (i = 0 ∨ ((telemetry.get? (i - 1)).map (·.brake)) = some false)
      then
        let j := i + ((telemetry.drop i).findIdx fun s => !s.brake)
        match telemetry.get? j with
        | none => none
        | some tj =>
          some { start_distance := t.distance, end_distance := tj.distance,
                 entry_speed := t.speed, exit_speed := tj.speed,
                 braking_distance := tj.distance - t.distance }
      else none

/-- `MonacoTrackKnowledge._find_apex_points` (lines 151-167), with the
hard-coded `window = 20`. The scanned indices are `range(20, len - 20)` and
the window list comprehension is `range(i - 20, i + 20)`. -/
noncomputable def find_apex_points (telemetry : List Sample) : List Apex :=
  (List.range' 20 (telemetry.length - 40)).filterMap fun i =>
    match telemetry.get? i with
    | none => none
    | some t =>
      let speeds := (List.range' (i - 20) (2 * 20)).filterMap
        fun j => (telemetry.get? j).map (·.speed)
      if pymin speeds = some t.speed ∧ t.speed < 150 then
        some { distance := t.distance, x := t.x, y := t.y, speed := t.speed }
      else none

/-- `MonacoTrackKnowledge._analyze_critical_turns` (lines 169-191): the
`for bz ... break` search is `List.find?`. -/
noncomputable def analyze_critical_turns (apex_points : List Apex)
    (braking_zones : List BrakingZone) : List Turn :=
  apex_points.filterMap fun apex =>
    match braking_zones.find? fun bz =>
        if bz.start_distance < apex.distance ∧
            apex.distance < bz.end_distance + 100 then true else false with
    | none => none
    | some bz =>
      some { apex_distance := apex.distance, apex_speed := apex.speed,
             braking_point := bz.start_distance,
             braking_distance := bz.braking_distance,
             entry_speed := bz.entry_speed,
             apex_coords := (apex.x, apex.y) }

/-- `MonacoTrackKnowledge.get_nearest_line_point` (lines 193-204): a linear
scan keeping the strictly closer point; `min_dist` starts at `inf` (the `⊤`
of `EReal`) and `nearest` at `None`. -/
noncomputable def get_nearest_line_point (racing_line : List LinePoint)
    (x y : ℝ) : Option LinePoint :=
  (racing_line.foldl
    (fun (acc : EReal × Option LinePoint) point =>
      let dist := Real.sqrt ((point.x - x) ^ 2 + (point.y - y) ^ 2)
      if (dist : EReal) < acc.1 then ((dist : EReal), some point) else acc)
    ((⊤ : EReal), none)).2

/-- `TrainingConfig` dataclass of `train.py` (lines 26-44), defaults included. -/
structure TrainingConfig where
  num_episodes : ℕ := 2000
  max_steps_per_episode : ℕ := 10000
  learning_rate : ℝ := 3e-4
  gamma : ℝ := 0.99
  epsilon : ℝ := 0.2
  value_coef : ℝ := 0.5
  entropy_coef : ℝ := 0.01
  batch_size : ℕ := 64
  epochs_per_update : ℕ := 4
  crash_penalty : ℝ := -50
  completion_reward : ℝ := 200
  progress_reward : ℝ := 1
  speed_reward : ℝ := 0.01
  time_penalty : ℝ := -0.01

/-- A boundary polyline point (entries of `monaco_true_boundaries.json`,
consumed by `RacingEnv._is_off_track`). -/
structure BPoint where
  x : ℝ
  y : ℝ

noncomputable instance : DecidableEq BPoint := fun a b =>
  decidable_of_iff (a.x = b.x ∧ a.y = b.y)
    (by cases a; cases b; simp)

/-- A `position_history` record (`RacingEnv.step`, lines 238-244). -/
structure PosRec where
  x : ℝ
  y : ℝ
  speed : ℝ
  distance : ℝ

/-- The crash classifications of `RacingEnv._calculate_reward`
(`info['crash_reason']`). -/
inductive CrashReason where
  | offTrack
  | stuck
  | backwards
deriving DecidableEq

/-- The `info` dictionary returned by `RacingEnv._calculate_reward`:
one constructor per return point (the ongoing branch carries the
`distance` / `speed` / `distance_from_line` entries, lines 391-393). -/
inductive Info where
  | crashed : CrashReason → Info
  | completed : ℝ → Info
  | timeout
  | ongoing : ℝ → ℝ → ℝ → Info

/-- The mutable state of `RacingEnv` (`__init__`, lines 104-134), together
with the track data it reads (`track.racing_line`, `track.track_length`). -/
structure Env where
  racing_line : List LinePoint
  track_length : ℝ
  config : TrainingConfig := {}
  sim : F1PhysicsSimulator := {}
  left_boundary : List BPoint := []
  right_boundary : List BPoint := []
  has_boundaries : Bool := false
  state : CarState := {}
  steps : ℕ := 0
  last_distance : ℝ := 0
  best_distance : ℝ := 0
  lap_start_time : ℝ := 0
  consecutive_no_progress : ℕ := 0
  position_history : List PosRec := []
  last_x : ℝ := 0
  last_y : ℝ := 0
  total_physical_distance : ℝ := 0

/-- The boundary double loop of `RacingEnv._is_off_track` (lines 289-301):
the running `(min_dist_left, min_dist_right)`, starting at `(inf, inf)`. -/
noncomputable def boundary_scan (env : Env) : EReal × EReal :=
  [env.left_boundary, env.right_boundary].foldl
    (fun acc boundary =>
      boundary.foldl
        (fun (acc2 : EReal × EReal) point =>
          let dist := Real.sqrt ((env.state.x - point.x) ^ 2 +
            (env.state.y - point.y) ^ 2)
          if boundary = env.left_boundary then (min acc2.1 (dist : EReal), acc2.2)
          else (acc2.1, min acc2.2 (dist : EReal)))
        acc)
    ((⊤ : EReal), (⊤ : EReal))

/-- `RacingEnv._is_off_track` (lines 280-307). In the fallback branch the
`None` returned by an empty racing line would raise in Python, hence the
`Option`. -/
noncomputable def is_off_track (env : Env) : Option Bool :=
  if env.has_boundaries = false then
    (get_nearest_line_point env.racing_line env.state.x env.state.y).map
      fun nearest =>
        if Real.sqrt ((env.state.x - nearest.x) ^ 2 +
            (env.state.y - nearest.y) ^ 2) > 25 then true else false
  else
    let mins := boundary_scan env
    some (if mins.1 > 50 ∧ mins.2 > 50 then true else false)

/-- `RacingEnv._calculate_reward` (lines 309-395). `now` models the value of
`time.time()` read at line 348; the ongoing reward is the sum of the
increments applied to `reward`, in source order. -/
noncomputable def calculate_reward (env : Env)
    (step_distance progress_this_step now : ℝ) : Option (ℝ × Bool × Info) :=
  match get_nearest_line_point env.racing_line env.state.x env.state.y with
  | none => none
  | some nearest =>
    let distance_from_line := Real.sqrt ((env.state.x - nearest.x) ^ 2 +
      (env.state.y - nearest.y) ^ 2)
    match is_off_track env with
    | none => none
    | some off =>
      if off then
        some (env.config.crash_penalty, true, Info.crashed .offTrack)
      else if env.consecutive_no_progress > 500 then
        some (env.config.crash_penalty, true, Info.crashed .stuck)
      else if env.state.speed < 0 then
        some (env.config.crash_penalty * 0.5, true, Info.crashed .backwards)
      else if env.state.distance ≥ env.track_length then
        let lap_time := now - env.lap_start_time
        let reward := env.config.completion_reward +
          (if lap_time < 100 then (100 - lap_time) * 2 else 0)
        some (reward, true, Info.completed lap_time)
      else if env.steps ≥ env.config.max_steps_per_episode then
        some ((env.state.distance / env.track_length) * 50, true, Info.timeout)
      else
        let r1 := if progress_this_step > 0 then
          progress_this_step * env.config.progress_reward else 0
        let r2 := if distance_from_line < 15 then
          (env.state.speed * 3.6) * env.config.speed_reward else 0
        let r3 := if distance_from_line < 10 then (0.1 : ℝ)
          else if distance_from_line < 20 then 0.05 else 0
        let r4 := if |env.state.steering| > 0.8 then (-0.02 : ℝ) else 0
        let r5 := if env.state.brake > 80 then (-0.01 : ℝ) else 0
        some (r1 + r2 + r3 + r4 + r5 + env.config.time_penalty, false,
          Info.ongoing env.state.distance (env.state.speed * 3.6)
            distance_from_line)

/-- Result of one environment step: the mutated `RacingEnv` state plus the
`(reward, done, info)` triple of `RacingEnv.step` (the returned observation
is a pure read-out of `env` and carries no state). -/
structure StepResult where
  env : Env
  reward : ℝ
  done : Bool
  info : Info

/-- `RacingEnv.step` (lines 222-278): action conversion, physics advance,
position-history recording, distance re-anchoring to the nearest line point,
physical-movement / stuck-counter update, progress accounting, then
`_calculate_reward`. `now` models `time.time()`. -/
noncomputable def stepEnv (env : Env) (action : ℝ × ℝ × ℝ) (now : ℝ) :
    Option StepResult :=
  let throttle := pyclip ((action.1 + 1) * 50) 0 100
  let brake := pyclip ((action.2.1 + 1) * 50) 0 100
  let steering := pyclip action.2.2 (-1) 1
  let old_x := env.state.x
  let old_y := env.state.y
  let st1 := update_car_state env.sim env.state throttle brake steering
  let hist := if env.steps % 10 = 0 then
      env.position_history ++
        [{ x := st1.x, y := st1.y, speed := st1.speed * 3.6,
           distance := st1.distance }]
    else env.position_history
  let step_distance := Real.sqrt ((st1.x - old_x) ^ 2 + (st1.y - old_y) ^ 2)
  match get_nearest_line_point env.racing_line st1.x st1.y with
  | none => none
  | some nearest =>
    let st2 := { st1 with distance := nearest.distance }
    let physical_movement := Real.sqrt ((st2.x - env.last_x) ^ 2 +
      (st2.y - env.last_y) ^ 2)
    let cnp := if physical_movement < 0.01 then
      env.consecutive_no_progress + 1 else 0
    let progress_this_step := st2.distance - env.last_distance
    let env' : Env :=
      { env with
        state := st2
        position_history := hist
        total_physical_distance := env.total_physical_distance +
          physical_movement
        consecutive_no_progress := cnp
        last_x := st2.x
        last_y := st2.y
        best_distance := max env.best_distance st2.distance
        last_distance := st2.distance
        steps := env.steps + 1 }
    match calculate_reward env' step_distance progress_this_step now with
    | none => none
    | some (reward, done, info) =>
      some { env := env', reward := reward, done := done, info := info }

/-! Concrete fixtures used to instantiate the claims. -/

/-- The default simulator (`F1PhysicsSimulator()`). -/
noncomputable def sim0 : F1PhysicsSimulator := {}

/-- Full-throttle launch from the all-default initial state (`CarState()`),
as in the simulator's own validation run (`f1_physics_simulator.py` lines
275-284): repeated `update_car_state` with throttle 100, brake 0, steering 0. -/
noncomputable def traj : ℕ → CarState
  | 0 => {}
  | n + 1 => update_car_state sim0 (traj n) 100 0 0

/-- A one-point racing line at the origin with distance 0. -/
def lp0 : LinePoint := {}

/-- The position-history record produced while parked at the origin. -/
def pos0 : PosRec := { x := 0, y := 0, speed := 0, distance := 0 }

/-- The parked car state after `k` ticks of full braking at the origin:
speed 0, throttle 0, brake 100, gear 1, rpm at idle, elapsed time `k · dt`. -/
noncomputable def restState (k : ℕ) : CarState :=
  { x := 0, y := 0, heading := 0, speed := 0, vx := 0, vy := 0,
    throttle := 0, brake := 100, steering := 0, gear := 1, rpm := 5000,
    tire_temp := 80, fuel_kg := 100, lap_time := (k : ℝ) * 0.01, distance := 0 }

/-- The environment for the stuck scenario: a car parked at the origin on a
one-point racing line (no boundary data), after `c` consecutive
no-progress ticks out of `k` total ticks, with position history `h`. -/
noncomputable def E (c k : ℕ) (h : List PosRec) : Env :=
  { racing_line := [lp0], track_length := 1000, state := restState k,
    steps := k, consecutive_no_progress := c, position_history := h }

/-- The action whose conversion yields throttle 0, brake 100, steering 0. -/
def a0 : ℝ × ℝ × ℝ := (-1, 1, 0)

/-- The position-history update performed by tick number `k + 1`. -/
def histUpd (k : ℕ) (h : List PosRec) : List PosRec :=
  if k % 10 = 0 then h ++ [pos0] else h

/-- Result of the `n + 1`-st step of the parked rollout started at `E 0 0 []`
(braking at full, `time.time()` frozen at 0). -/
noncomputable def resAt : ℕ → Option StepResult
  | 0 => stepEnv (E 0 0 []) a0 0
  | n + 1 => (resAt n).bind fun r => stepEnv r.env a0 0

/-- One-point racing line whose sample sits at the origin with line distance
5, so that re-anchoring immediately reaches `track_length = 5`. -/
def lpC2 : LinePoint := { distance := 5 }

/-- Environment one tick away from completion: parked at the origin, racing
line distance 5, track length 5, `lap_start_time = 0`. -/
noncomputable def EnvC2 : Env :=
  { racing_line := [lpC2], track_length := 5, state := restState 0 }

/-- The environment state produced by the completing step out of `EnvC2`. -/
noncomputable def EnvC2' : Env :=
  { racing_line := [lpC2], track_length := 5,
    state := { restState 1 with distance := 5 },
    steps := 1, last_distance := 5, best_distance := 5,
    consecutive_no_progress := 1, position_history := [pos0],
    last_x := 0, last_y := 0, total_physical_distance := 0 }

/-- A parked environment whose track length is already covered (used to
instantiate the completion-reward rule). -/
noncomputable def EnvC2w : Env :=
  { racing_line := [lp0], track_length := 0, state := restState 0 }

/-- The step result of the first parked step out of `E 0 0 []`. -/
noncomputable def R4 : StepResult :=
  ⟨E 1 1 [pos0], 0.08, false, Info.ongoing 0 0 0⟩

/-- Two racing-line samples with identical coordinates but different speeds. -/
def dupA : LinePoint := { speed := 100 }

/-- Second sample at the same coordinates as `dupA`. -/
def dupB : LinePoint := { speed := 200 }

/-- A racing-line sample away from the origin. -/
def lpFar : LinePoint := { x := 3, y := 4 }

/-- Telemetry for the C9 counterexample: 41 samples, speed 120 everywhere
except speed 100 at index 20 and speed 50 at index 40. -/
noncomputable def tel41 : List Sample :=
  (List.range 41).map fun (i : ℕ) =>
    { x := 0, y := 0, z := 0,
      speed := if i = 20 then 100 else if i = 40 then 50 else 120,
      throttle := 0, brake := false, distance := (i : ℝ) }

/-- Telemetry for the C8 counterexample: 42 samples braking on the first six,
constant speed 100, distance advancing one unit per sample up to sample 20
and stalled at 20 afterwards. -/
noncomputable def tel42 : List Sample :=
  (List.range 42).map fun (i : ℕ) =>
    { x := 0, y := 0, z := 0, speed := 100, throttle := 0,
      brake := decide (i ≤ 5),
      distance := if i ≤ 20 then (i : ℝ) else 20 }

/-- Two-sample telemetry with strictly increasing distances. -/
def telW : List Sample :=
  [{ distance := 0 }, { distance := 1 }]

/-- C3: the dynamics advance is deterministic: two calls of `update_car_state`
on states that agree in every field, with the same throttle, brake, steering
and the same simulator (hence the same timestep), return states that agree in
every field. There is no hidden random state. -/
theorem C3_advance_deterministic (sim : F1PhysicsSimulator) (s1 s2 : CarState)
    (throttle brake steering : ℝ)
    (hx : s1.x = s2.x) (hy : s1.y = s2.y) (hheading : s1.heading = s2.heading)
    (hspeed : s1.speed = s2.speed) (hvx : s1.vx = s2.vx) (hvy : s1.vy = s2.vy)
    (hthrottle : s1.throttle = s2.throttle) (hbrake : s1.brake = s2.brake)
    (hsteering : s1.steering = s2.steering) (hgear : s1.gear = s2.gear)
    (hrpm : s1.rpm = s2.rpm) (htemp : s1.tire_temp = s2.tire_temp)
    (hfuel : s1.fuel_kg = s2.fuel_kg) (hlap : s1.lap_time = s2.lap_time)
    (hdist : s1.distance = s2.distance) :
    update_car_state sim s1 throttle brake steering =
      update_car_state sim s2 throttle brake steering := by
  have h : s1 = s2 := by
    ext <;> assumption
  rw [h]

/-- Witness for C3 at a concrete input. -/
theorem C3_advance_deterministic_witness :
    update_car_state {} {} 70 5 (1/2) = update_car_state {} {} 70 5 (1/2) :=
  C3_advance_deterministic {} {} {} 70 5 (1/2) rfl rfl rfl rfl rfl rfl rfl rfl
    rfl rfl rfl rfl rfl rfl rfl

/-- C5: every state returned by `update_car_state` has non-negative speed,
for every input state and all throttle, brake and steering values
(the speed update is clamped at zero, line 236). -/
theorem C5_speed_nonneg (sim : F1PhysicsSimulator) (state : CarState)
    (throttle brake steering : ℝ) :
    0 ≤ (update_car_state sim state throttle brake steering).speed :=
  le_max_left 0 _

/-! Evaluation lemmas for the parked-car scenario. -/

theorem get_nearest_single (p : LinePoint) (x y : ℝ) :
    get_nearest_line_point [p] x y = some p := by
  simp only [get_nearest_line_point, List.foldl_cons, List.foldl_nil]
  rw [if_pos (EReal.coe_lt_top _)]

theorem update_rest (k : ℕ) :
    update_car_state sim0 (restState k) 0 100 0 = restState (k + 1) := by
  simp only [update_car_state, engine_force_and_rpm, calculate_engine_power,
    calculate_aerodynamic_forces, calculate_braking_force, pyclip, pyint,
    restState, sim0]
  norm_num [min_def, max_def, CarState.mk.injEq]
  ring

theorem step_E_eq (c k : ℕ) (h : List PosRec) (now : ℝ) :
    stepEnv (E c k h) a0 now =
      match calculate_reward (E (c + 1) (k + 1) (histUpd k h)) 0 0 now with
      | none => none
      | some (r, d, i) =>
        some ⟨E (c + 1) (k + 1) (histUpd k h), r, d, i⟩ := by
  have hth : pyclip ((a0.1 + 1) * 50) 0 100 = 0 := by norm_num [pyclip, a0]
  have hbr : pyclip ((a0.2.1 + 1) * 50) 0 100 = 100 := by norm_num [pyclip, a0]
  have hst : pyclip a0.2.2 (-1) 1 = 0 := by norm_num [pyclip, a0]
  simp only [stepEnv, E, hth, hbr, hst]
  rw [show ({} : F1PhysicsSimulator) = sim0 from rfl, update_rest]
  simp only [restState, get_nearest_single, histUpd, pos0, lp0]
  norm_num [Real.sqrt_zero, E, restState, histUpd, pos0, lp0]

theorem is_off_track_E (c k : ℕ) (h : List PosRec) :
    is_off_track (E c k h) = some false := by
  simp only [is_off_track, E, get_nearest_single]
  norm_num [restState, lp0, Real.sqrt_zero]

theorem reward_E (c k : ℕ) (h : List PosRec) (now : ℝ) :
    calculate_reward (E c k h) 0 0 now =
      if 500 < c then some (-50, true, Info.crashed .stuck)
      else if 10000 ≤ k then some (0, true, Info.timeout)
      else some (0.08, false, Info.ongoing 0 0 0) := by
  rw [calculate_reward, is_off_track_E]
  simp only [E, get_nearest_single]
  norm_num [restState, lp0, Real.sqrt_zero, TrainingConfig.mk]

theorem histUpd_replicate (m : ℕ) :
    histUpd m (List.replicate ((m + 9) / 10) pos0) =
      List.replicate ((m + 10) / 10) pos0 := by
  unfold histUpd
  split_ifs with hm
  · rw [show (m + 10) / 10 = (m + 9) / 10 + 1 by omega, List.replicate_succ']
  · rw [show (m + 10) / 10 = (m + 9) / 10 by omega]

theorem resAt_closed (n : ℕ) (hn : n ≤ 499) :
    resAt n = some ⟨E (n + 1) (n + 1) (List.replicate ((n + 10) / 10) pos0),
      0.08, false, Info.ongoing 0 0 0⟩ := by
  induction n with
  | zero =>
    rw [resAt, step_E_eq, reward_E, if_neg (by omega : ¬ (500 : ℕ) < 0 + 1),
      if_neg (by omega : ¬ (10000 : ℕ) ≤ 0 + 1),
      show ([] : List PosRec) = List.replicate ((0 + 9) / 10) pos0 from rfl,
      histUpd_replicate]
  | succ n ih =>
    rw [resAt, ih (by omega), Option.some_bind,
      show (n + 10) / 10 = (n + 1 + 9) / 10 by omega,
      step_E_eq, reward_E, histUpd_replicate,
      if_neg (by omega : ¬ (500 : ℕ) < n + 1 + 1),
      if_neg (by omega : ¬ (10000 : ℕ) ≤ n + 1 + 1)]

theorem step_E0 :
    stepEnv (E 0 0 []) a0 0 =
      some ⟨E 1 1 [pos0], 0.08, false, Info.ongoing 0 0 0⟩ := by
  have h := resAt_closed 0 (by norm_num)
  rw [resAt] at h
  simpa using h

/-- C1 counterexample: in the parked rollout `resAt`, all 500 first ticks
qualify (the no-progress counter of the resulting environment is 500), yet
the 500th tick returns `done = false` with the ongoing reward — the episode
is NOT terminated on the 500th consecutive qualifying tick as the claim
requires (`consecutive_no_progress > 500` fails at 500). -/
theorem C1_counterexample_tick_500_not_terminal :
    resAt 499 = some ⟨E 500 500 (List.replicate 50 pos0), 0.08, false,
      Info.ongoing 0 0 0⟩ := by
  have h := resAt_closed 499 (by norm_num)
  rwa [show (499 + 10) / 10 = 50 from rfl] at h

/-- C1 (amended): the stuck rule terminates on the 501st consecutive
qualifying tick, not the 500th: every one of the first 500 ticks of the
parked rollout returns `done = false`, and the 501st tick returns terminal
`Crashed(stuck)` with reward `crash_penalty = -50`. -/
theorem C1_stuck_fires_on_tick_501 :
    (∀ m, m ≤ 499 → (resAt m).map StepResult.done = some false) ∧
      resAt 500 = some ⟨E 501 501 (List.replicate 51 pos0), -50, true,
        Info.crashed CrashReason.stuck⟩ := by
  constructor
  · intro m hm
    rw [resAt_closed m hm]
    rfl
  · rw [show (500 : ℕ) = 499 + 1 from rfl, resAt,
      resAt_closed 499 (by norm_num), Option.some_bind,
      show (499 + 10) / 10 = (500 + 9) / 10 from rfl,
      step_E_eq, reward_E, histUpd_replicate,
      if_pos (by omega : (500 : ℕ) < 500 + 1)]

/-- Witness for C1's amended theorem at the concrete tick 4. -/
theorem C1_stuck_fires_on_tick_501_witness :
    (resAt 3).map StepResult.done = some false :=
  C1_stuck_fires_on_tick_501.1 3 (by norm_num)

theorem is_off_track_origin (env : Env) (h1 : env.racing_line = [lp0])
    (h2 : env.state.x = 0) (h3 : env.state.y = 0)
    (h4 : env.has_boundaries = false) :
    is_off_track env = some false := by
  simp only [is_off_track, h1, h2, h3, h4, get_nearest_single]
  norm_num [lp0, Real.sqrt_zero]

/-- C2 (amended): on the step whose re-anchored track distance reaches the
track length (and which no earlier termination rule claims), the episode
ends as terminal `Completed(lap_time)` with
`reward = completion_reward + (100 − lap_time) * 2` when `lap_time < 100`,
where `lap_time = now − lap_start_time` is WALL-CLOCK elapsed time
(`time.time()` minus the reset wall-clock stamp), not the simulated elapsed
lap time. -/
theorem C2_completion_wall_clock_reward (env : Env) (sd pt now : ℝ)
    (nearest : LinePoint)
    (hn : get_nearest_line_point env.racing_line env.state.x env.state.y =
      some nearest)
    (hoff : is_off_track env = some false)
    (hstuck : env.consecutive_no_progress ≤ 500)
    (hspeed : 0 ≤ env.state.speed)
    (hdist : env.track_length ≤ env.state.distance) :
    calculate_reward env sd pt now =
      some (env.config.completion_reward +
        (if now - env.lap_start_time < 100
         then (100 - (now - env.lap_start_time)) * 2 else 0),
        true, Info.completed (now - env.lap_start_time)) := by
  rw [calculate_reward, hn, hoff]
  simp only [Bool.false_eq_true, if_false]
  rw [if_neg (by omega : ¬ env.consecutive_no_progress > 500),
    if_neg (not_lt.mpr hspeed), if_pos hdist]

/-- Witness for C2's amended theorem on a concrete completing environment. -/
theorem C2_completion_wall_clock_reward_witness :
    calculate_reward EnvC2w 0 0 60 = some (280, true, Info.completed 60) := by
  have h := C2_completion_wall_clock_reward EnvC2w 0 0 60 lp0
    (by rw [show EnvC2w.racing_line = [lp0] from rfl]; exact get_nearest_single _ _ _)
    (is_off_track_origin EnvC2w rfl rfl rfl rfl)
    (by norm_num [EnvC2w])
    (by norm_num [EnvC2w, restState])
    (by norm_num [EnvC2w, restState])
  rw [h]
  norm_num [EnvC2w]

theorem stepC2_eval :
    stepEnv EnvC2 a0 60 = some ⟨EnvC2', 280, true, Info.completed 60⟩ := by
  have hth : pyclip ((a0.1 + 1) * 50) 0 100 = 0 := by norm_num [pyclip, a0]
  have hbr : pyclip ((a0.2.1 + 1) * 50) 0 100 = 100 := by norm_num [pyclip, a0]
  have hst : pyclip a0.2.2 (-1) 1 = 0 := by norm_num [pyclip, a0]
  simp only [stepEnv, EnvC2, hth, hbr, hst]
  rw [show ({} : F1PhysicsSimulator) = sim0 from rfl, update_rest]
  simp only [restState, get_nearest_single, lpC2, calculate_reward,
    is_off_track]
  norm_num [Real.sqrt_zero, get_nearest_single, lpC2, EnvC2', restState,
    pos0, sim0, Env.mk.injEq, CarState.mk.injEq]

/-- C2 counterexample: in the completing step out of `EnvC2` the reported
`lap_time` is the wall-clock difference 60 (`time.time() = 60` against
`lap_start_time = 0`), while the simulated elapsed lap time accumulated at
`dt` per tick in the post-step state is `0.01` — so the claim's assertion
that the completion `lap_time` equals the simulated elapsed lap time (and
that the bonus is computed from it) is false. -/
theorem C2_counterexample_wall_clock_lap_time :
    (stepEnv EnvC2 a0 60).map (fun r => (r.reward, r.done, r.info)) =
        some (280, true, Info.completed 60) ∧
      (stepEnv EnvC2 a0 60).map (fun r => r.env.state.lap_time) =
        some 0.01 ∧
      (60 : ℝ) ≠ 0.01 := by
  rw [stepC2_eval]
  refine ⟨rfl, ?_, by norm_num⟩
  norm_num [EnvC2', restState]

theorem calculate_reward_backwards_never (env : Env) (sd pt now : ℝ)
    (r' : ℝ × Bool × Info) (h : calculate_reward env sd pt now = some r')
    (hs : 0 ≤ env.state.speed) :
    r'.2.2 ≠ Info.crashed CrashReason.backwards := by
  rw [calculate_reward] at h
  split at h
  · exact absurd h (by simp)
  split at h
  · exact absurd h (by simp)
  split_ifs at h <;>
    first
      | exact absurd (by assumption : env.state.speed < 0) (not_lt.mpr hs)
      | (simp only [Option.some.injEq] at h; subst h; simp)

/-- C6: the backwards branch is unreachable: every successful `step()`
evaluates termination on the post-advance state, whose speed is clamped
non-negative, so no step ever reports `Crashed(backwards)`. -/
theorem C6_backwards_unreachable (env : Env) (action : ℝ × ℝ × ℝ) (now : ℝ)
    (r : StepResult) (h : stepEnv env action now = some r) :
    r.info ≠ Info.crashed CrashReason.backwards := by
  rw [stepEnv] at h
  dsimp only [] at h
  repeat' split at h
  all_goals try exact Option.noConfusion h
  all_goals simp only [Option.some.injEq] at h
  all_goals subst h
  all_goals exact calculate_reward_backwards_never _ _ _ _ _ ‹_› (le_max_left 0 _)

theorem coe50 : (50 : EReal) = ((50 : ℝ) : EReal) := by norm_cast

theorem foldl_min_gt {α : Type} (f : α → EReal) (c : EReal) (l : List α) :
    ∀ a : EReal,
      (c < l.foldl (fun m p => min m (f p)) a ↔ c < a ∧ ∀ p ∈ l, c < f p) := by
  induction l with
  | nil => intro a; simp
  | cons x xs ih =>
    intro a
    rw [List.foldl_cons, ih (min a (f x)), lt_min_iff]
    simp only [List.mem_cons]
    constructor
    · rintro ⟨⟨ha, hx⟩, hxs⟩
      exact ⟨ha, fun p hp => hp.elim (fun hpe => hpe ▸ hx) (hxs p)⟩
    · rintro ⟨ha, hall⟩
      exact ⟨⟨ha, hall x (Or.inl rfl)⟩, fun p hp => hall p (Or.inr hp)⟩

theorem foldl_pair_fst (f : BPoint → EReal) (l : List BPoint) :
    ∀ acc : EReal × EReal,
      l.foldl (fun acc2 p => (min acc2.1 (f p), acc2.2)) acc =
        (l.foldl (fun m p => min m (f p)) acc.1, acc.2) := by
  induction l with
  | nil => intro acc; rfl
  | cons x xs ih => intro acc; rw [List.foldl_cons, ih, List.foldl_cons]

theorem foldl_pair_snd (f : BPoint → EReal) (l : List BPoint) :
    ∀ acc : EReal × EReal,
      l.foldl (fun acc2 p => (acc2.1, min acc2.2 (f p))) acc =
        (acc.1, l.foldl (fun m p => min m (f p)) acc.2) := by
  induction l with
  | nil => intro acc; rfl
  | cons x xs ih => intro acc; rw [List.foldl_cons, ih, List.foldl_cons]

theorem boundary_scan_gt (env : Env) (c : EReal) (hc : c < ⊤) :
    (c < (boundary_scan env).1 ∧ c < (boundary_scan env).2) ↔
      ((∀ p ∈ env.left_boundary,
          c < (Real.sqrt ((env.state.x - p.x) ^ 2 + (env.state.y - p.y) ^ 2) :
            EReal)) ∧
       (∀ p ∈ env.right_boundary,
          c < (Real.sqrt ((env.state.x - p.x) ^ 2 + (env.state.y - p.y) ^ 2) :
            EReal))) := by
  by_cases hrl : env.right_boundary = env.left_boundary
  · simp only [boundary_scan, List.foldl_cons, List.foldl_nil, hrl,
      eq_self_iff_true, if_true]
    rw [foldl_pair_fst, foldl_pair_fst]
    simp only [foldl_min_gt]
    constructor
    · rintro ⟨⟨⟨-, hl⟩, hr⟩, -⟩
      exact ⟨hl, hr⟩
    · rintro ⟨hl, hr⟩
      exact ⟨⟨⟨hc, hl⟩, hr⟩, hc⟩
  · simp only [boundary_scan, List.foldl_cons, List.foldl_nil,
      eq_self_iff_true, if_true, if_neg hrl]
    rw [foldl_pair_fst, foldl_pair_snd]
    simp only [foldl_min_gt]
    constructor
    · rintro ⟨⟨-, hl⟩, -, hr⟩
      exact ⟨hl, hr⟩
    · rintro ⟨hl, hr⟩
      exact ⟨⟨hc, hl⟩, hc, hr⟩

theorem ite_bool_eq_true (p : Prop) [Decidable p] :
    ((if p then true else false) = true) ↔ p := by
  split_ifs with h <;> simp [h]

theorem is_off_track_true_iff (env : Env) :
    is_off_track env = some true ↔
      ((env.has_boundaries = false ∧ ∃ nearest,
          get_nearest_line_point env.racing_line env.state.x env.state.y =
            some nearest ∧
          25 < Real.sqrt ((env.state.x - nearest.x) ^ 2 +
            (env.state.y - nearest.y) ^ 2)) ∨
       (env.has_boundaries = true ∧
          (∀ p ∈ env.left_boundary,
            50 < Real.sqrt ((env.state.x - p.x) ^ 2 +
              (env.state.y - p.y) ^ 2)) ∧
          (∀ p ∈ env.right_boundary,
            50 < Real.sqrt ((env.state.x - p.x) ^ 2 +
              (env.state.y - p.y) ^ 2)))) := by
  by_cases hb : env.has_boundaries = false
  · rw [is_off_track, if_pos hb]
    simp only [Option.map_eq_some']
    constructor
    · rintro ⟨nearest, hn, hval⟩
      rw [ite_bool_eq_true] at hval
      exact Or.inl ⟨hb, nearest, hn, hval⟩
    · rintro (⟨-, nearest, hn, h25⟩ | ⟨habs, -⟩)
      · exact ⟨nearest, hn, (ite_bool_eq_true _).mpr h25⟩
      · rw [habs] at hb
        exact Bool.noConfusion hb
  · rw [is_off_track, if_neg hb]
    have hbt : env.has_boundaries = true := by
      cases hx : env.has_boundaries
      · exact absurd hx hb
      · rfl
    have h50 := boundary_scan_gt env 50 (by rw [coe50]; exact EReal.coe_lt_top _)
    simp only [coe50, EReal.coe_lt_coe_iff] at h50
    simp only [Option.some.injEq, ite_bool_eq_true, gt_iff_lt, coe50]
    rw [h50]
    constructor
    · rintro ⟨hl, hr⟩
      exact Or.inr ⟨hbt, hl, hr⟩
    · rintro (⟨habs, -⟩ | ⟨-, hl, hr⟩)
      · exact absurd habs hb
      · exact ⟨hl, hr⟩

theorem calculate_reward_offtrack_iff (env : Env) (sd pt now rw : ℝ)
    (d : Bool) (i : Info)
    (h : calculate_reward env sd pt now = some (rw, d, i)) :
    (i = Info.crashed CrashReason.offTrack ∧ d = true ∧
        rw = env.config.crash_penalty) ↔ is_off_track env = some true := by
  rw [calculate_reward] at h
  split at h
  · exact Option.noConfusion h
  split at h
  · exact Option.noConfusion h
  rename_i off heq
  rw [heq]
  cases off
  · rw [if_neg (fun hcontra => Bool.noConfusion hcontra)] at h
    constructor
    · rintro ⟨hinfo, -, -⟩
      split_ifs at h <;>
        (simp only [Option.some.injEq, Prod.mk.injEq] at h
         obtain ⟨-, -, hi⟩ := h
         rw [← hi] at hinfo
         simp at hinfo)
    · intro hsome
      simp at hsome
  · rw [if_pos rfl] at h
    simp only [Option.some.injEq, Prod.mk.injEq] at h
    obtain ⟨rfl, rfl, rfl⟩ := h
    simp

theorem stepEnv_reward_eq (env : Env) (action : ℝ × ℝ × ℝ) (now : ℝ)
    (r : StepResult) (h : stepEnv env action now = some r) :
    calculate_reward r.env
      (Real.sqrt ((r.env.state.x - env.state.x) ^ 2 +
        (r.env.state.y - env.state.y) ^ 2))
      (r.env.state.distance - env.last_distance) now =
      some (r.reward, r.done, r.info) := by
  rw [stepEnv] at h
  dsimp only [] at h
  split at h
  · exact Option.noConfusion h
  · split_ifs at h
    all_goals split at h
    all_goals try exact Option.noConfusion h
    all_goals simp only [Option.some.injEq] at h
    all_goals subst h
    all_goals dsimp only
    all_goals assumption

/-- C4: a step reports terminal `Crashed(off_track)` with
`reward = crash_penalty` exactly when the off-track rule holds on the
post-advance position: with boundary data, when the minimum distance to each
of the two boundary polylines exceeds 50; without boundary data, when the
distance to the nearest racing-line point exceeds 25. -/
theorem C4_off_track_rule (env : Env) (action : ℝ × ℝ × ℝ) (now : ℝ)
    (r : StepResult) (h : stepEnv env action now = some r) :
    (r.info = Info.crashed CrashReason.offTrack ∧ r.done = true ∧
        r.reward = r.env.config.crash_penalty) ↔
      ((r.env.has_boundaries = false ∧ ∃ nearest,
          get_nearest_line_point r.env.racing_line r.env.state.x
            r.env.state.y = some nearest ∧
          25 < Real.sqrt ((r.env.state.x - nearest.x) ^ 2 +
            (r.env.state.y - nearest.y) ^ 2)) ∨
       (r.env.has_boundaries = true ∧
          (∀ p ∈ r.env.left_boundary,
            50 < Real.sqrt ((r.env.state.x - p.x) ^ 2 +
              (r.env.state.y - p.y) ^ 2)) ∧
          (∀ p ∈ r.env.right_boundary,
            50 < Real.sqrt ((r.env.state.x - p.x) ^ 2 +
              (r.env.state.y - p.y) ^ 2)))) := by
  have heq := stepEnv_reward_eq env action now r h
  exact (calculate_reward_offtrack_iff r.env _ _ now r.reward r.done r.info
    heq).trans (is_off_track_true_iff r.env)

/-- Witness for C4 on the first parked step (the rule evaluates to false on
both sides: the parked car is on the line and no boundary data is loaded). -/
theorem C4_off_track_rule_witness :
    (R4.info = Info.crashed CrashReason.offTrack ∧ R4.done = true ∧
        R4.reward = R4.env.config.crash_penalty) ↔
      ((R4.env.has_boundaries = false ∧ ∃ nearest,
          get_nearest_line_point R4.env.racing_line R4.env.state.x
            R4.env.state.y = some nearest ∧
          25 < Real.sqrt ((R4.env.state.x - nearest.x) ^ 2 +
            (R4.env.state.y - nearest.y) ^ 2)) ∨
       (R4.env.has_boundaries = true ∧
          (∀ p ∈ R4.env.left_boundary,
            50 < Real.sqrt ((R4.env.state.x - p.x) ^ 2 +
              (R4.env.state.y - p.y) ^ 2)) ∧
          (∀ p ∈ R4.env.right_boundary,
            50 < Real.sqrt ((R4.env.state.x - p.x) ^ 2 +
              (R4.env.state.y - p.y) ^ 2)))) :=
  C4_off_track_rule (E 0 0 []) a0 0 R4 step_E0

theorem dist_sq_pos (q p : LinePoint) (h : q.x ≠ p.x ∨ q.y ≠ p.y) :
    0 < (q.x - p.x) ^ 2 + (q.y - p.y) ^ 2 := by
  rcases h with hx | hy
  · exact add_pos_of_pos_of_nonneg
      (lt_of_le_of_ne (sq_nonneg _) (Ne.symm (pow_ne_zero 2 (sub_ne_zero.mpr hx))))
      (sq_nonneg _)
  · exact add_pos_of_nonneg_of_pos (sq_nonneg _)
      (lt_of_le_of_ne (sq_nonneg _) (Ne.symm (pow_ne_zero 2 (sub_ne_zero.mpr hy))))

theorem nearest_fold_zero (x y : ℝ) (l : List LinePoint) :
    ∀ nr : Option LinePoint,
      l.foldl
        (fun (acc : EReal × Option LinePoint) point =>
          let dist := Real.sqrt ((point.x - x) ^ 2 + (point.y - y) ^ 2)
          if (dist : EReal) < acc.1 then ((dist : EReal), some point) else acc)
        (((0 : ℝ) : EReal), nr) = (((0 : ℝ) : EReal), nr) := by
  induction l with
  | nil => intro nr; rfl
  | cons q qs ih =>
    intro nr
    rw [List.foldl_cons]
    dsimp only
    rw [if_neg, ih nr]
    intro hcontra
    rw [EReal.coe_lt_coe_iff] at hcontra
    exact absurd hcontra (not_lt.mpr (Real.sqrt_nonneg _))

theorem nearest_fold_fst (x y : ℝ) (l : List LinePoint) :
    ∀ acc : EReal × Option LinePoint,
      ((l.foldl
        (fun (acc : EReal × Option LinePoint) point =>
          let dist := Real.sqrt ((point.x - x) ^ 2 + (point.y - y) ^ 2)
          if (dist : EReal) < acc.1 then ((dist : EReal), some point) else acc)
        acc).1 = acc.1 ∨
      ∃ q ∈ l, (l.foldl
        (fun (acc : EReal × Option LinePoint) point =>
          let dist := Real.sqrt ((point.x - x) ^ 2 + (point.y - y) ^ 2)
          if (dist : EReal) < acc.1 then ((dist : EReal), some point) else acc)
        acc).1 = ((Real.sqrt ((q.x - x) ^ 2 + (q.y - y) ^ 2) : ℝ) : EReal)) := by
  induction l with
  | nil => intro acc; exact Or.inl rfl
  | cons q qs ih =>
    intro acc
    rw [List.foldl_cons]
    dsimp only
    by_cases hc :
      ((Real.sqrt ((q.x - x) ^ 2 + (q.y - y) ^ 2) : ℝ) : EReal) < acc.1
    · rw [if_pos hc]
      rcases ih (((Real.sqrt ((q.x - x) ^ 2 + (q.y - y) ^ 2) : ℝ) : EReal),
          some q) with h | ⟨r, hr, h⟩
      · exact Or.inr ⟨q, List.mem_cons_self q qs, h⟩
      · exact Or.inr ⟨r, List.mem_cons_of_mem q hr, h⟩
    · rw [if_neg hc]
      rcases ih acc with h | ⟨r, hr, h⟩
      · exact Or.inl h
      · exact Or.inr ⟨r, List.mem_cons_of_mem q hr, h⟩

/-- C7 (amended): querying the racing line at the coordinates of one of its
samples returns, at distance 0, the FIRST sample of the line carrying those
coordinates; in particular it returns that exact sample whenever no earlier
sample shares its coordinates (ties broken by first occurrence through the
strict `<` update). -/
theorem C7_nearest_first_occurrence (pre post : List LinePoint) (p : LinePoint)
    (hpre : ∀ q ∈ pre, q.x ≠ p.x ∨ q.y ≠ p.y) :
    get_nearest_line_point (pre ++ p :: post) p.x p.y = some p := by
  unfold get_nearest_line_point
  rw [List.foldl_append, List.foldl_cons]
  have hdp : Real.sqrt ((p.x - p.x) ^ 2 + (p.y - p.y) ^ 2) = 0 := by
    simp
  have hcond : ((0 : ℝ) : EReal) <
      (pre.foldl
        (fun (acc : EReal × Option LinePoint) point =>
          let dist := Real.sqrt ((point.x - p.x) ^ 2 + (point.y - p.y) ^ 2)
          if (dist : EReal) < acc.1 then ((dist : EReal), some point) else acc)
        ((⊤ : EReal), (none : Option LinePoint))).1 := by
    rcases nearest_fold_fst p.x p.y pre ((⊤ : EReal), none) with hfst |
      ⟨q, hq, hfst⟩
    · rw [hfst]
      exact EReal.coe_lt_top 0
    · rw [hfst, EReal.coe_lt_coe_iff]
      exact Real.sqrt_pos.mpr (dist_sq_pos q p (hpre q hq))
  dsimp only
  rw [hdp, if_pos hcond, nearest_fold_zero]

/-- Witness for C7's amended theorem: a two-point line whose first point is
away from the query sample. -/
theorem C7_nearest_first_occurrence_witness :
    get_nearest_line_point [lpFar, dupA] dupA.x dupA.y = some dupA := by
  have h := C7_nearest_first_occurrence [lpFar] [] dupA
  rw [List.cons_append, List.nil_append] at h
  apply h
  intro q hq
  rw [List.mem_singleton] at hq
  subst hq
  left
  norm_num [lpFar, dupA]

/-- C7 counterexample: with two samples at identical coordinates, querying
the second sample's own coordinates returns the FIRST sample, not that exact
sample — the round-trip claim fails for the second of two duplicate
samples. -/
theorem C7_counterexample_duplicate_coordinates :
    get_nearest_line_point [dupA, dupB] dupB.x dupB.y = some dupA ∧
      dupA ≠ dupB := by
  constructor
  · have h0 : Real.sqrt ((dupA.x - dupB.x) ^ 2 + (dupA.y - dupB.y) ^ 2) = 0 := by
      norm_num [dupA, dupB]
    have h1 : Real.sqrt ((dupB.x - dupB.x) ^ 2 + (dupB.y - dupB.y) ^ 2) = 0 := by
      norm_num [dupA, dupB]
    unfold get_nearest_line_point
    rw [List.foldl_cons, List.foldl_cons, List.foldl_nil]
    dsimp only
    rw [h0, h1, if_pos (show ((0 : ℝ) : EReal) < ⊤ from EReal.coe_lt_top 0)]
    dsimp only
    rw [if_neg (lt_irrefl ((0 : ℝ) : EReal))]
  · intro h
    have := congrArg LinePoint.speed h
    norm_num [dupA, dupB] at this

theorem foldl_min_le (xs : List ℝ) :
    ∀ a : ℝ, xs.foldl min a ≤ a ∧ ∀ x ∈ xs, xs.foldl min a ≤ x := by
  induction xs with
  | nil =>
    intro a
    exact ⟨le_refl a, fun x hx => absurd hx (List.not_mem_nil x)⟩
  | cons y ys ih =>
    intro a
    rw [List.foldl_cons]
    obtain ⟨h1, h2⟩ := ih (min a y)
    refine ⟨le_trans h1 (min_le_left a y), ?_⟩
    intro x hx
    rcases List.mem_cons.mp hx with rfl | hx'
    · exact le_trans h1 (min_le_right a x)
    · exact h2 x hx'

theorem foldl_min_mem (xs : List ℝ) :
    ∀ a : ℝ, xs.foldl min a = a ∨ xs.foldl min a ∈ xs := by
  induction xs with
  | nil => intro a; exact Or.inl rfl
  | cons y ys ih =>
    intro a
    rw [List.foldl_cons]
    rcases ih (min a y) with h | h
    · rcases le_total a y with hay | hya
      · exact Or.inl (h.trans (min_eq_left hay))
      · refine Or.inr ?_
        rw [h, min_eq_right hya]
        exact List.mem_cons_self y ys
    · exact Or.inr (List.mem_cons_of_mem y h)

theorem pymin_eq_some_iff (l : List ℝ) (v : ℝ) (hv : v ∈ l) :
    pymin l = some v ↔ ∀ x ∈ l, v ≤ x := by
  cases l with
  | nil => exact absurd hv (List.not_mem_nil v)
  | cons a xs =>
    rw [pymin]
    simp only [Option.some.injEq]
    constructor
    · rintro rfl
      intro x hx
      obtain ⟨h1, h2⟩ := foldl_min_le xs a
      rcases List.mem_cons.mp hx with rfl | hx'
      · exact h1
      · exact h2 x hx'
    · intro hall
      obtain ⟨h1, h2⟩ := foldl_min_le xs a
      have hle : xs.foldl min a ≤ v := by
        rcases List.mem_cons.mp hv with rfl | hv'
        · exact h1
        · exact h2 v hv'
      have hge : v ≤ xs.foldl min a := by
        rcases foldl_min_mem xs a with h | h
        · rw [h]
          exact hall a (List.mem_cons_self a xs)
        · exact hall _ (List.mem_cons_of_mem a h)
      exact le_antisymm hle hge

theorem mem_find_apex_iff (telemetry : List Sample) (a : Apex) :
    a ∈ find_apex_points telemetry ↔
      ∃ i t, telemetry.get? i = some t ∧ 20 ≤ i ∧ i + 20 < telemetry.length ∧
        (∀ j tj, i - 20 ≤ j → j < i + 20 → telemetry.get? j = some tj →
          t.speed ≤ tj.speed) ∧
        t.speed < 150 ∧
        a = { distance := t.distance, x := t.x, y := t.y, speed := t.speed } := by
  unfold find_apex_points
  rw [List.mem_filterMap]
  constructor
  · rintro ⟨i, hmem, hg⟩
    rw [List.mem_range'_1] at hmem
    have hi20 : 20 ≤ i := hmem.1
    have hilen : i + 20 < telemetry.length := by omega
    cases hti : telemetry.get? i with
    | none => rw [hti] at hg; exact Option.noConfusion hg
    | some t =>
      rw [hti] at hg
      dsimp only at hg
      split_ifs at hg with hcond
      · simp only [Option.some.injEq] at hg
        obtain ⟨hmin, hlt⟩ := hcond
        refine ⟨i, t, hti, hi20, hilen, ?_, hlt, hg.symm⟩
        intro j tj hj1 hj2 htj
        have hjmem : j ∈ List.range' (i - 20) (2 * 20) := by
          rw [List.mem_range'_1]
          omega
        have htmem : t.speed ∈ (List.range' (i - 20) (2 * 20)).filterMap
            fun j => (telemetry.get? j).map (·.speed) := by
          rw [List.mem_filterMap]
          refine ⟨i, ?_, ?_⟩
          · rw [List.mem_range'_1]
            omega
          · rw [hti]
            try rfl
        have := (pymin_eq_some_iff _ _ htmem).mp hmin
        apply this
        rw [List.mem_filterMap]
        refine ⟨j, hjmem, ?_⟩
        rw [htj]
        try rfl
  · rintro ⟨i, t, hti, hi20, hilen, hwin, hlt, rfl⟩
    refine ⟨i, ?_, ?_⟩
    · rw [List.mem_range'_1]
      omega
    · rw [hti]
      dsimp only
      rw [if_pos]
      constructor
      · have htmem : t.speed ∈ (List.range' (i - 20) (2 * 20)).filterMap
            fun j => (telemetry.get? j).map (·.speed) := by
          rw [List.mem_filterMap]
          refine ⟨i, ?_, ?_⟩
          · rw [List.mem_range'_1]
            omega
          · rw [hti]
            try rfl
        rw [pymin_eq_some_iff _ _ htmem]
        intro x hx
        rw [List.mem_filterMap] at hx
        obtain ⟨j, hjmem, hjx⟩ := hx
        rw [List.mem_range'_1] at hjmem
        cases htj : telemetry.get? j with
        | none => rw [htj] at hjx; exact Option.noConfusion hjx
        | some tj =>
          rw [htj] at hjx
          simp only [Option.map_some', Option.some.injEq] at hjx
          rw [← hjx]
          exact hwin j tj (by omega) (by omega) htj
      · exact hlt

/-- C9 (amended): an entry appears in the derived apex list exactly when it
is built from a sample at index `i` (with `20 ≤ i` and `i + 20 < n`) whose
speed is minimal over the 40-sample window of indices `i − 20` to `i + 19`
— 20 samples before, the sample itself and 19 after, NOT a symmetric
half-width-20 window — and whose speed is below 150. -/
theorem C9_apex_window_characterization (telemetry : List Sample) (a : Apex) :
    a ∈ find_apex_points telemetry ↔
      ∃ i t, telemetry.get? i = some t ∧ 20 ≤ i ∧ i + 20 < telemetry.length ∧
        (∀ j tj, i - 20 ≤ j → j < i + 20 → telemetry.get? j = some tj →
          t.speed ≤ tj.speed) ∧
        t.speed < 150 ∧
        a = { distance := t.distance, x := t.x, y := t.y, speed := t.speed } :=
  mem_find_apex_iff telemetry a

theorem tel41_get (j : ℕ) (hj : j < 41) :
    tel41.get? j = some
      { x := 0, y := 0, z := 0,
        speed := if j = 20 then 100 else if j = 40 then 50 else 120,
        throttle := 0, brake := false, distance := (j : ℝ) } := by
  simp [tel41, List.get?_eq_getElem?, List.getElem?_map, List.getElem?_range,
    hj]

/-- C9 counterexample: in `tel41` the sample at index 20 (speed 100) enters
the apex list because it is minimal over indices 0..39, although the
symmetric window of half-width 20 also contains index 40 whose speed 50 is
smaller — so the claim's symmetric-window minimality fails for a listed
apex. -/
theorem C9_counterexample_asymmetric_window :
    ({ distance := 20, x := 0, y := 0, speed := 100 } : Apex) ∈
        find_apex_points tel41 ∧
      (tel41.get? 40).map (·.speed) = some 50 ∧ ¬ ((100 : ℝ) ≤ 50) := by
  refine ⟨?_, ?_, by norm_num⟩
  · rw [mem_find_apex_iff]
    refine ⟨20, _, tel41_get 20 (by norm_num), by norm_num, ?_, ?_, ?_, ?_⟩
    · rw [tel41]
      simp
    · intro j tj hj1 hj2 htj
      rw [tel41_get j (by omega)] at htj
      simp only [Option.some.injEq] at htj
      subst htj
      dsimp only
      rw [if_pos rfl]
      split_ifs with hj20 hj40
      · norm_num
      · exact absurd hj40 (by omega)
      · norm_num
    · norm_num
    · norm_num
  · rw [tel41_get 40 (by norm_num)]
    norm_num

theorem pairwise_filterMap_lt {α β : Type} (f : α → Option β)
    {R : α → α → Prop} {S : β → β → Prop}
    (hf : ∀ a a', R a a' → ∀ b, f a = some b → ∀ b', f a' = some b' → S b b') :
    ∀ {l : List α}, l.Pairwise R → (l.filterMap f).Pairwise S := by
  intro l hl
  induction hl with
  | nil =>
    rw [List.filterMap_nil]
    exact List.Pairwise.nil
  | cons hhead htail ih =>
    rename_i a l'
    rw [List.filterMap_cons]
    cases hfa : f a with
    | none => exact ih
    | some b =>
      refine List.Pairwise.cons ?_ ih
      intro b' hb'
      obtain ⟨a', ha', hfa'⟩ := List.mem_filterMap.mp hb'
      exact hf a a' (hhead a' ha') b hfa b' hfa'

theorem range'_pairwise_lt (s n : ℕ) :
    (List.range' s n).Pairwise (· < ·) := by
  rw [List.range'_eq_map_range, List.pairwise_map]
  exact (List.pairwise_lt_range n).imp fun h => by omega

theorem get?_distance_lt (tel : List Sample)
    (h : (tel.map (·.distance)).Pairwise (· < ·)) (i i' : ℕ) (hii : i < i')
    (ti ti' : Sample) (hti : tel.get? i = some ti)
    (hti' : tel.get? i' = some ti') :
    ti.distance < ti'.distance := by
  rw [List.get?_eq_getElem?, List.getElem?_eq_some] at hti hti'
  obtain ⟨hlen, hget⟩ := hti
  obtain ⟨hlen', hget'⟩ := hti'
  have hp := List.pairwise_iff_getElem.mp h i i'
    (by simpa using hlen) (by simpa using hlen') hii
  rw [List.getElem_map, List.getElem_map, hget, hget'] at hp
  exact hp

theorem apex_points_distance_pairwise (tel : List Sample)
    (h : (tel.map (·.distance)).Pairwise (· < ·)) :
    (find_apex_points tel).Pairwise
      (fun a1 a2 => a1.distance < a2.distance) := by
  unfold find_apex_points
  apply pairwise_filterMap_lt (R := (· < ·)) _ _ (range'_pairwise_lt _ _)
  intro i i' hii a ha a' ha'
  cases hti : tel.get? i with
  | none =>
    rw [hti] at ha
    exact Option.noConfusion ha
  | some t =>
    cases hti' : tel.get? i' with
    | none =>
      rw [hti'] at ha'
      exact Option.noConfusion ha'
    | some t' =>
      rw [hti] at ha
      rw [hti'] at ha'
      dsimp only at ha ha'
      split_ifs at ha ha'
      simp only [Option.some.injEq] at ha ha'
      rw [← ha, ← ha']
      exact get?_distance_lt tel h i i' hii t t' hti hti'

/-- C8 (amended): whenever the reference samples have strictly increasing
distance values, the derived critical-turn sequence is strictly ordered by
apex distance. (Without that hypothesis the invariant fails, e.g. when the
reference positions stall so that consecutive samples share a distance.) -/
theorem C8_turns_strictly_ordered (tel : List Sample)
    (h : (tel.map (·.distance)).Pairwise (· < ·)) :
    ((analyze_critical_turns (find_apex_points tel)
        (find_braking_zones tel)).map (·.apex_distance)).Pairwise
      (· < ·) := by
  rw [List.pairwise_map]
  unfold analyze_critical_turns
  apply pairwise_filterMap_lt
    (R := fun a1 a2 : Apex => a1.distance < a2.distance) _ _
    (apex_points_distance_pairwise tel h)
  intro a a' haa' b hb b' hb'
  have hbd : b.apex_distance = a.distance := by
    split at hb
    · exact Option.noConfusion hb
    · simp only [Option.some.injEq] at hb
      rw [← hb]
  have hbd' : b'.apex_distance = a'.distance := by
    split at hb'
    · exact Option.noConfusion hb'
    · simp only [Option.some.injEq] at hb'
      rw [← hb']
  rw [hbd, hbd']
  exact haa'

/-- Witness for C8's amended theorem on a two-sample telemetry with strictly
increasing distances. -/
theorem C8_turns_strictly_ordered_witness :
    ((analyze_critical_turns (find_apex_points telW)
        (find_braking_zones telW)).map (·.apex_distance)).Pairwise
      (· < ·) :=
  C8_turns_strictly_ordered telW (by norm_num [telW, List.pairwise_cons])

theorem pymin_replicate_forty : pymin (List.replicate 40 (100 : ℝ)) = some 100 := by
  have haux : ∀ n : ℕ, (List.replicate n (100 : ℝ)).foldl min 100 = 100 := by
    intro n
    induction n with
    | zero => rfl
    | succ n ih =>
      rw [List.replicate_succ, List.foldl_cons, min_self]
      exact ih
  rw [show List.replicate 40 (100 : ℝ) = 100 :: List.replicate 39 100 from rfl,
    pymin, haux 39]

theorem find_apex_tel42 : find_apex_points tel42 =
    [{ distance := ((20 : ℕ) : ℝ), x := 0, y := 0, speed := 100 },
     { distance := (20 : ℝ), x := 0, y := 0, speed := 100 }] := by
  unfold find_apex_points
  have hg20 : tel42.get? 20 = some
      { x := 0, y := 0, z := 0, speed := 100, throttle := 0, brake := false,
        distance := ((20 : ℕ) : ℝ) } := rfl
  have hg21 : tel42.get? 21 = some
      { x := 0, y := 0, z := 0, speed := 100, throttle := 0, brake := false,
        distance := (20 : ℝ) } := rfl
  rw [show List.range' 20 (tel42.length - 40) = [20, 21] from rfl,
    List.filterMap_cons, List.filterMap_cons, List.filterMap_nil, hg20, hg21]
  dsimp only
  rw [show (List.range' (20 - 20) (2 * 20)).filterMap
      (fun j => (tel42.get? j).map (·.speed)) =
      List.replicate 40 (100 : ℝ) from rfl,
    show (List.range' (21 - 20) (2 * 20)).filterMap
      (fun j => (tel42.get? j).map (·.speed)) =
      List.replicate 40 (100 : ℝ) from rfl,
    pymin_replicate_forty,
    if_pos ⟨rfl, by norm_num⟩, if_pos ⟨rfl, by norm_num⟩]

theorem turns_tel42 : analyze_critical_turns (find_apex_points tel42)
      (find_braking_zones tel42) =
    [{ apex_distance := ((20 : ℕ) : ℝ), apex_speed := 100,
       braking_point := ((0 : ℕ) : ℝ),
       braking_distance := ((6 : ℕ) : ℝ) - ((0 : ℕ) : ℝ),
       entry_speed := 100, apex_coords := (0, 0) },
     { apex_distance := (20 : ℝ), apex_speed := 100,
       braking_point := ((0 : ℕ) : ℝ),
       braking_distance := ((6 : ℕ) : ℝ) - ((0 : ℕ) : ℝ),
       entry_speed := 100, apex_coords := (0, 0) }] := by
  have hz : find_braking_zones tel42 =
      [{ start_distance := ((0 : ℕ) : ℝ), end_distance := ((6 : ℕ) : ℝ),
         entry_speed := 100, exit_speed := 100,
         braking_distance := ((6 : ℕ) : ℝ) - ((0 : ℕ) : ℝ) }] := rfl
  rw [find_apex_tel42, hz]
  unfold analyze_critical_turns
  rw [List.filterMap_cons, List.filterMap_cons, List.filterMap_nil]
  dsimp only
  rw [List.find?_cons_of_pos _ (by norm_num),
    List.find?_cons_of_pos _ (by norm_num)]

/-- C8 counterexample: a 42-sample reference lap whose positions stall after
sample 20 (so consecutive samples share the distance value 20) yields two
critical turns with EQUAL apex distances — the strict ordering
`apex_distance i < apex_distance (i+1)` fails. -/
theorem C8_counterexample_equal_apex_distances :
    ((analyze_critical_turns (find_apex_points tel42)
        (find_braking_zones tel42)).map (·.apex_distance)) = [20, 20] ∧
      ¬ ((analyze_critical_turns (find_apex_points tel42)
          (find_braking_zones tel42)).map (·.apex_distance)).Pairwise
        (· < ·) := by
  have hmap : ((analyze_critical_turns (find_apex_points tel42)
      (find_braking_zones tel42)).map (·.apex_distance)) = [20, 20] := by
    rw [turns_tel42]
    norm_num
  refine ⟨hmap, ?_⟩
  rw [hmap]
  intro hp
  rw [List.pairwise_cons] at hp
  exact absurd (hp.1 20 (List.mem_singleton.mpr rfl)) (lt_irrefl 20)

theorem engine_power_lb (rpm : ℤ) (h1 : 5000 ≤ rpm) (h2 : rpm ≤ 15000) :
    (357000 : ℝ) ≤ calculate_engine_power sim0 rpm 100 := by
  unfold calculate_engine_power
  dsimp only [sim0]
  rw [if_neg (by omega : ¬ rpm < (5000 : ℤ)),
    if_neg (by omega : ¬ rpm > (15000 : ℤ))]
  have hc1 : (5000 : ℝ) ≤ (rpm : ℝ) := by exact_mod_cast h1
  have hc2 : (rpm : ℝ) ≤ 15000 := by exact_mod_cast h2
  have hr1 : (5 : ℝ) / 11 ≤ (rpm : ℝ) / ((11000 : ℤ) : ℝ) := by
    rw [show (((11000 : ℤ) : ℝ)) = 11000 from by norm_num]
    rw [div_le_div_iff (by norm_num) (by norm_num)]
    linarith
  have hr2 : (rpm : ℝ) / ((11000 : ℤ) : ℝ) ≤ 15 / 11 := by
    rw [show (((11000 : ℤ) : ℝ)) = 11000 from by norm_num]
    rw [div_le_div_iff (by norm_num) (by norm_num)]
    linarith
  have hsq : ((rpm : ℝ) / ((11000 : ℤ) : ℝ) - 1) ^ 2 ≤ (6 / 11) ^ 2 := by
    nlinarith [hr1, hr2]
  have hexp := Real.add_one_le_exp
    (-0.5 * (((rpm : ℝ) / ((11000 : ℤ) : ℝ) - 1) ^ 2) / 0.3)
  norm_num at hexp ⊢
  nlinarith [hexp, hsq]

theorem engine_power_clamped_lb (a : ℤ) :
    (357000 : ℝ) ≤ calculate_engine_power sim0 (max 5000 (min a 15000)) 100 :=
  engine_power_lb _ (le_max_left _ _)
    (max_le (by norm_num) (min_le_right _ _))

theorem branch_ge_drag (v P : ℝ) (h0 : 0 ≤ v) (hB : v ≤ 40.5)
    (hP : 357000 ≤ P) :
    0.5 * 1.2 * v ^ 2 * 0.9 * 1.5 ≤
      (if v * 3.6 < 100 then
        min (if v > 0.5 then P / v else 10000 * ((100 : ℝ) / 100))
          ((798 * 9.81 + 0.5 * 1.2 * v ^ 2 * 3 * 1.5) *
            (0.85 + (1.4 - 0.85) * (v * 3.6 / 100)))
      else
        min (P / v) ((798 * 9.81 + 0.5 * 1.2 * v ^ 2 * 3 * 1.5) * 1.4)) := by
  have h3 : v ^ 3 ≤ 40.5 ^ 3 := pow_le_pow_left h0 hB 3
  split_ifs with hkmh hv05
  · refine le_min ?_ ?_
    · rw [le_div_iff (by linarith : (0 : ℝ) < v)]
      nlinarith [hP, h3]
    · nlinarith [h0, sq_nonneg v, pow_nonneg h0 3]
  · have hv : v ≤ 0.5 := not_lt.mp hv05
    refine le_min ?_ ?_
    · nlinarith [h0, hv]
    · nlinarith [h0, sq_nonneg v, pow_nonneg h0 3]
  · have hvpos : (0 : ℝ) < v := by nlinarith [not_lt.mp hkmh]
    refine le_min ?_ ?_
    · rw [le_div_iff hvpos]
      nlinarith [hP, h3]
    · nlinarith [h0, sq_nonneg v]

theorem engine_ge_drag (s : CarState) (hg : s.gear = 1) (h0 : 0 ≤ s.speed)
    (hB : s.speed ≤ 40.5) :
    (calculate_aerodynamic_forces sim0 s.speed).1 ≤
      (engine_force_and_rpm sim0 s 100).1 := by
  unfold engine_force_and_rpm calculate_aerodynamic_forces
  dsimp only [sim0]
  rw [hg, if_pos (by norm_num), apply_ite Prod.fst]
  dsimp only
  exact branch_ge_drag s.speed _ h0 hB (engine_power_clamped_lb _)

/-- The gear assignment of `update_car_state`, read off the definition. -/
theorem update_gear_eq (sim : F1PhysicsSimulator) (s : CarState)
    (t b st : ℝ) :
    (update_car_state sim s t b st).gear =
      if ((engine_force_and_rpm sim s (pyclip t 0 100)).2 : ℝ) >
          (sim.physics.max_rpm : ℝ) * 0.95 ∧ s.gear < 8 then s.gear + 1
      else if ((engine_force_and_rpm sim s (pyclip t 0 100)).2 : ℝ) <
          (sim.physics.max_rpm : ℝ) * 0.5 ∧ s.gear > 1 then s.gear - 1
      else s.gear := rfl

theorem speed_bound_of_no_upshift (s : CarState) (th : ℝ) (hg : s.gear = 1)
    (h0 : 0 ≤ s.speed)
    (hr : (engine_force_and_rpm sim0 s th).2 ≤ 14250) :
    s.speed ≤ 40.5 := by
  unfold engine_force_and_rpm at hr
  dsimp only [sim0] at hr
  rw [hg, if_pos (by norm_num), apply_ite Prod.snd] at hr
  dsimp only at hr
  rw [ite_self] at hr
  by_cases hv : s.speed > 0.1
  · rw [if_pos hv] at hr
    have hmin : min (pyint ((s.speed * 60) / (2 * Real.pi * 0.33) *
        (([3.5, 2.8, 2.2, 1.8, 1.5, 1.3, 1.15, 1] : List ℝ).get?
          ((1 : ℤ) - 1).toNat).getD 0 * 3.5)) 15000 ≤ 14250 :=
      le_trans (le_max_right 5000 _) hr
    rw [show (([3.5, 2.8, 2.2, 1.8, 1.5, 1.3, 1.15, 1] : List ℝ).get?
      ((1 : ℤ) - 1).toNat).getD 0 = (3.5 : ℝ) from rfl] at hmin
    have hfl : pyint ((s.speed * 60) / (2 * Real.pi * 0.33) *
        (3.5 : ℝ) * 3.5) ≤ 14250 := by omega
    have hden : (0 : ℝ) < 2 * Real.pi * 0.33 := by positivity
    have hy0 : 0 ≤ (s.speed * 60) / (2 * Real.pi * 0.33) * (3.5 : ℝ) * 3.5 := by
      have := div_nonneg (mul_nonneg h0 (by norm_num : (0:ℝ) ≤ 60))
        (le_of_lt hden)
      nlinarith [this]
    simp only [pyint] at hfl
    rw [if_pos hy0] at hfl
    have hcast : ((⌊(s.speed * 60) / (2 * Real.pi * 0.33) *
        (3.5 : ℝ) * 3.5⌋ : ℤ) : ℝ) ≤ 14250 := by exact_mod_cast hfl
    have hy : (s.speed * 60) / (2 * Real.pi * 0.33) * (3.5 : ℝ) * 3.5 <
        14251 := by
      linarith [Int.lt_floor_add_one ((s.speed * 60) / (2 * Real.pi * 0.33) *
        (3.5 : ℝ) * 3.5)]
    rw [div_mul_eq_mul_div, div_mul_eq_mul_div, div_lt_iff hden] at hy
    nlinarith [Real.pi_pos, Real.pi_lt_315]
  · linarith [not_lt.mp hv]

theorem update_speed_eq (sim : F1PhysicsSimulator) (s : CarState)
    (t b st : ℝ) :
    (update_car_state sim s t b st).speed =
      max 0 (s.speed +
        ((engine_force_and_rpm sim s (pyclip t 0 100)).1 -
          (calculate_aerodynamic_forces sim s.speed).1 -
          calculate_braking_force sim (pyclip b 0 100) s.speed
            (calculate_aerodynamic_forces sim s.speed).2) /
          sim.physics.mass * sim.dt) := rfl

theorem one_step_monotone (s : CarState) (hg : s.gear = 1) (h0 : 0 ≤ s.speed)
    (hB : s.speed ≤ 40.5) :
    s.speed ≤ (update_car_state sim0 s 100 0 0).speed := by
  have hdrag := engine_ge_drag s hg h0 hB
  have hth : pyclip 100 0 100 = (100 : ℝ) := by norm_num [pyclip]
  have hbrake : calculate_braking_force sim0 (pyclip 0 0 100) s.speed
      (calculate_aerodynamic_forces sim0 s.speed).2 = 0 := by
    unfold calculate_braking_force calculate_aerodynamic_forces pyclip
    dsimp only [sim0]
    norm_num
    positivity
  rw [update_speed_eq, hth, hbrake,
    show sim0.physics.mass = (798 : ℝ) from rfl,
    show sim0.dt = (0.01 : ℝ) from rfl]
  refine le_trans ?_ (le_max_right _ _)
  have hnet : 0 ≤ (engine_force_and_rpm sim0 s 100).1 -
      (calculate_aerodynamic_forces sim0 s.speed).1 - 0 := by
    linarith
  nlinarith [hnet]

theorem traj_speed_nonneg : ∀ n, 0 ≤ (traj n).speed
  | 0 => le_refl 0
  | n + 1 => le_max_left 0 _

/-- C10: starting from the all-default zero-speed state under constant full
throttle, zero brake and zero steering, speed never decreases from one tick
to the next as long as the gear has not shifted away from first gear (the
first upshift boundary has not been crossed). -/
theorem C10_full_throttle_monotone (n : ℕ) (hn : (traj n).gear = 1)
    (hn1 : (traj (n + 1)).gear = 1) :
    (traj n).speed ≤ (traj (n + 1)).speed := by
  have h0 : 0 ≤ (traj n).speed := traj_speed_nonneg n
  have hrle : (engine_force_and_rpm sim0 (traj n) (pyclip 100 0 100)).2 ≤
      14250 := by
    by_contra hgt
    push_neg at hgt
    have hcast : ((engine_force_and_rpm sim0 (traj n)
        (pyclip 100 0 100)).2 : ℝ) > (sim0.physics.max_rpm : ℝ) * 0.95 := by
      rw [show (sim0.physics.max_rpm : ℝ) = ((15000 : ℤ) : ℝ) from rfl]
      norm_num
      exact_mod_cast hgt
    have hcontra := hn1
    rw [show traj (n + 1) = update_car_state sim0 (traj n) 100 0 0 from rfl,
      update_gear_eq, if_pos ⟨hcast, by rw [hn]; norm_num⟩, hn] at hcontra
    norm_num at hcontra
  have hB : (traj n).speed ≤ 40.5 := by
    apply speed_bound_of_no_upshift (traj n) (pyclip 100 0 100) hn h0
    exact hrle
  exact one_step_monotone (traj n) hn h0 hB

/-- Witness for C10 at the first tick. -/
theorem C10_full_throttle_monotone_witness :
    (traj 0).speed ≤ (traj 1).speed := by
  apply C10_full_throttle_monotone 0 rfl
  show (update_car_state sim0 {} 100 0 0).gear = 1
  rw [update_gear_eq]
  norm_num [engine_force_and_rpm, calculate_aerodynamic_forces, sim0, pyclip,
    min_def, max_def]

/-- Witness for C6 on the first parked step. -/
theorem C6_backwards_unreachable_witness :
    (⟨E 1 1 [pos0], 0.08, false, Info.ongoing 0 0 0⟩ : StepResult).info ≠
      Info.crashed CrashReason.backwards :=
  C6_backwards_unreachable (E 0 0 []) a0 0 _ step_E0

end F1
